import Mathlib

/-!
Verification of the pingen-cli configuration, token and request pipeline.

The Go sources are shallowly embedded as pure Lean functions.  Side effects
(filesystem reads, HTTP exchanges, config saves) are passed in as explicit
oracle arguments, and handlers additionally return the ordered list of
network calls they issued, so that temporal properties ("no network call")
become statements about that trace.
-/

namespace Pingen

/-- Embeds `Config` from src/internal/pingen/config.go: the persisted /
effective settings record.  `accessTokenExpiresAt` is Go `int64`, modelled
as `Int` (the program never overflows it). -/
structure Config where
  env : String
  apiBase : String
  identityBase : String
  organisationID : String
  accessToken : String
  accessTokenExpiresAt : Int
  clientID : String
  clientSecret : String
deriving DecidableEq, Repr

/-- The zero `Config{}` value of Go. -/
def Config.empty : Config :=
  { env := "", apiBase := "", identityBase := "", organisationID := ""
    accessToken := "", accessTokenExpiresAt := 0, clientID := "", clientSecret := "" }

/-- Embeds `MergeConfig` from src/internal/pingen/config.go: starts from
`base` and replaces each field whose `override` value is non-empty
(non-zero for the expiry field). -/
def MergeConfig (base override : Config) : Config :=
  { env := if override.env ≠ "" then override.env else base.env
    apiBase := if override.apiBase ≠ "" then override.apiBase else base.apiBase
    identityBase := if override.identityBase ≠ "" then override.identityBase else base.identityBase
    organisationID := if override.organisationID ≠ "" then override.organisationID else base.organisationID
    accessToken := if override.accessToken ≠ "" then override.accessToken else base.accessToken
    accessTokenExpiresAt :=
      if override.accessTokenExpiresAt ≠ 0 then override.accessTokenExpiresAt
      else base.accessTokenExpiresAt
    clientID := if override.clientID ≠ "" then override.clientID else base.clientID
    clientSecret := if override.clientSecret ≠ "" then override.clientSecret else base.clientSecret }

/-- Spec-side selector for a string field of the three-layer merge: the CLI
value when non-empty, else the environment value when non-empty, else the
file value.  Written from the spec's words, to be compared with
`MergeConfig`. -/
def specPickStr (file env cli : String) : String :=
  if cli ≠ "" then cli else if env ≠ "" then env else file

/-- Spec-side selector for the numeric expiry field: non-zero wins, highest
layer first.  Written from the spec's words. -/
def specPickInt (file env cli : Int) : Int :=
  if cli ≠ 0 then cli else if env ≠ 0 then env else file

/-- State of the persisted configuration file as seen by `os.ReadFile` plus
JSON decoding: absent, unreadable, or present with `parsed` holding the
result of `json.Unmarshal` into a `Config` (`none` = not valid JSON). -/
inductive ConfigFile where
  | notExist
  | readError
  | content (parsed : Option Config)
deriving DecidableEq

/-- Error classes `LoadConfig` can return.  There is no not-exist
constructor: `LoadConfig` maps `os.ErrNotExist` to a nil error. -/
inductive LoadErr where
  | ioError
  | parseError
deriving DecidableEq

/-- Embeds `LoadConfig` from src/internal/pingen/config.go: returns the
decoded config, whether the file existed, and an optional error.  A missing
file is `(zero, false, nil)`; an unreadable file propagates the read error;
a file with invalid JSON returns `(zero, true, err)`. -/
def LoadConfig : ConfigFile → Config × Bool × Option LoadErr
  | .notExist => (Config.empty, false, none)
  | .readError => (Config.empty, false, some .ioError)
  | .content none => (Config.empty, true, some .parseError)
  | .content (some cfg) => (cfg, true, none)

/-- Embeds `applyDefaultBases` from src/unnamed/part_000: fills in each
base URL, when empty, from the environment; `production` selects the
production hostnames, anything else the staging ones. -/
def applyDefaultBases (cfg : Config) : Config :=
  let cfg :=
    if cfg.apiBase = "" then
      { cfg with apiBase :=
          if cfg.env = "production" then "https://api.pingen.com"
          else "https://api-staging.pingen.com" }
    else cfg
  if cfg.identityBase = "" then
    { cfg with identityBase :=
        if cfg.env = "production" then "https://identity.pingen.com"
        else "https://identity-staging.pingen.com" }
  else cfg

/-- Outcome of the settings-resolution part of `run` (src/unnamed/part_000
lines 48–96): either an early abort, or the dispatch of a subcommand with
the effective settings and the config-existed flag. -/
inductive RunOutcome where
  | loadConfigFailed
  | secretFileFailed
  | invalidEnv
  | dispatch (subcommand : String) (settings : Config) (configLoaded : Bool)
deriving DecidableEq

/-- The env-defaulting and validation tail of `run` (lines 68–96): default
an unset environment to `staging`, reject anything other than
`staging`/`production`, apply default base URLs, then dispatch. -/
def runEnvStep (settings : Config) (subcommand : String) (cfgExists : Bool) : RunOutcome :=
  let settings := if settings.env = "" then { settings with env := "staging" } else settings
  if settings.env ≠ "staging" ∧ settings.env ≠ "production" then .invalidEnv
  else .dispatch subcommand (applyDefaultBases settings) cfgExists

/-- Embeds the settings-resolution body of `run` (lines 48–96).
`readSecretFile` is the `os.ReadFile` oracle for the client-secret file;
Go's `strings.TrimSpace` is modelled by `String.trim`.  `run` aborts when
`LoadConfig` reports any error: the `errors.Is(cfgErr, os.ErrNotExist)`
guard is always false because `LoadConfig` maps that case to a nil error. -/
def runResolve (fileState : ConfigFile) (envCfg cliCfg : Config)
    (clientSecretFile : String) (readSecretFile : String → Except Unit String)
    (subcommand : String) : RunOutcome :=
  let loaded := LoadConfig fileState
  let cfg := loaded.1
  let cfgExists := loaded.2.1
  if loaded.2.2.isSome then .loadConfigFailed
  else
    let settings := MergeConfig (MergeConfig cfg envCfg) cliCfg
    if clientSecretFile ≠ "" then
      match readSecretFile clientSecretFile with
      | .error _ => .secretFileFailed
      | .ok secret => runEnvStep { settings with clientSecret := secret.trim } subcommand cfgExists
    else runEnvStep settings subcommand cfgExists

/-- Untyped JSON values as decoded by Go's `encoding/json` into `any`:
objects become key/value lists with distinct keys.  Numbers are modelled as
integers: the program only consumes `expires_in` through `int64(...)`
truncation, and builds integral values itself. -/
inductive Json where
  | null
  | bool (b : Bool)
  | num (n : Int)
  | str (s : String)
  | arr (elems : List Json)
  | obj (fields : List (String × Json))

/-- Go map indexing `payload[key]` on a decoded JSON object (keys are
distinct, so the first match is the only one). -/
def Json.get (fields : List (String × Json)) (key : String) : Option Json :=
  (fields.find? (fun p => p.1 = key)).map (fun p => p.2)

/-- The error cases of `ensureAccessToken` (src/unnamed/part_000
lines 815–850). -/
inductive TokenErr where
  | credentialsRequired
  | tokenRequestFailed
  | tokenMissing
deriving DecidableEq

/-- Observable outcome of `ensureAccessToken`: the returned token or error,
whether a token request was sent over the network, and the config record
passed to `SaveConfig` when a best-effort save was attempted. -/
structure TokenOutcome where
  result : Except TokenErr String
  networkCall : Bool
  savedConfig : Option Config

/-- Embeds `ensureAccessToken` (src/unnamed/part_000 lines 815–850).
`now` is `time.Now().Unix()` (the two `time.Now()` readings in the source
are the same instant at this granularity); `getToken` is the outcome of
`client.GetToken` (the decoded response object); `loadedCfg` is what
`LoadConfig` returns during the best-effort write-back; `saveOutcome` is
the result of `SaveConfig`, which the source discards (`_ = ...`), so it
influences nothing. -/
def ensureAccessToken (settings : Config) (now : Int) (configLoaded : Bool)
    (getToken : Except Unit (List (String × Json))) (loadedCfg : Config)
    (_saveOutcome : Except Unit Unit) : TokenOutcome :=
  if settings.accessToken ≠ "" ∧ settings.accessTokenExpiresAt = 0 then
    { result := .ok settings.accessToken, networkCall := false, savedConfig := none }
  else if settings.accessToken ≠ "" ∧ now < settings.accessTokenExpiresAt - 30 then
    { result := .ok settings.accessToken, networkCall := false, savedConfig := none }
  else if settings.clientID = "" ∨ settings.clientSecret = "" then
    { result := .error .credentialsRequired, networkCall := false, savedConfig := none }
  else
    match getToken with
    | .error _ => { result := .error .tokenRequestFailed, networkCall := true, savedConfig := none }
    | .ok payload =>
      match Json.get payload "access_token" with
      | some (.str token) =>
        if token = "" then
          { result := .error .tokenMissing, networkCall := true, savedConfig := none }
        else
          { result := .ok token, networkCall := true
            savedConfig :=
              if configLoaded then
                some { loadedCfg with
                  accessToken := token
                  accessTokenExpiresAt :=
                    match Json.get payload "expires_in" with
                    | some (.num e) => now + e
                    | _ => loadedCfg.accessTokenExpiresAt }
              else none }
      | _ => { result := .error .tokenMissing, networkCall := true, savedConfig := none }

/-- Error cases of metadata loading (`loadJSONInput`, src/unnamed/part_000
lines 884–914): conflicting sources, a file read failure, or content that
is not a JSON object. -/
inductive MetaErr where
  | bothSources
  | ioError
  | invalidJSON
deriving DecidableEq

/-- Embeds `parseJSONObject` (lines 908–914).  The argument is the JSON
parse result of the raw bytes (`none` = not valid JSON).  Go's
`json.Unmarshal` into `map[string]any` succeeds on a JSON object, and also
on the JSON literal `null`, which leaves the map nil with a nil error
(modelled as `.ok none`); every other top-level value — array, string,
number, boolean, or malformed bytes — fails, which `parseJSONObject` maps
to the invalid-JSON error. -/
def parseJSONObject : Option Json → Except MetaErr (Option (List (String × Json)))
  | some (.obj fields) => .ok (some fields)
  | some .null => .ok none
  | _ => .error .invalidJSON

/-- Go `strings.HasPrefix(s, "@")` ("@" is a single character). -/
def hasAt (s : String) : Bool :=
  match s.data with
  | c :: _ => c = '@'
  | [] => false

/-- Go `strings.TrimPrefix(s, "@")` as used under a `hasAt` guard: drops
the leading '@'. -/
def trimAt (s : String) : String := String.mk (s.data.drop 1)

/-- Embeds `loadJSONInput` (lines 884–906).  `readFile` returns the parse
result of a referenced file's bytes; `parseOf` gives the parse result of an
inline string.  A leading `@` on the inline value redirects to a file. -/
def loadJSONInput (metaJSON metaFile : String)
    (readFile : String → Except Unit (Option Json))
    (parseOf : String → Option Json) :
    Except MetaErr (Option (List (String × Json))) :=
  if metaJSON ≠ "" ∧ metaFile ≠ "" then .error .bothSources
  else if metaFile ≠ "" then
    match readFile metaFile with
    | .error _ => .error .ioError
    | .ok content => parseJSONObject content
  else if metaJSON ≠ "" then
    if hasAt metaJSON then
      match readFile (trimAt metaJSON) with
      | .error _ => .error .ioError
      | .ok content => parseJSONObject content
    else parseJSONObject (parseOf metaJSON)
  else .ok none

/-- Embeds `addQuery` (src/internal/pingen/api.go lines 250–267) at the
level of the URL's query map: `existing` is the lookup function of the
target URL's current query string; each supplied non-empty parameter is
set (overriding any existing value for its key), empty-valued parameters
are skipped, and every other key keeps its existing value.  Keys of
`params` are distinct (it embeds a Go map), so Go's unordered iteration
with keyed `values.Set` is order-independent. -/
def addQuery (existing : String → Option String) (params : List (String × String)) :
    String → Option String :=
  fun key =>
    match params.find? (fun p => p.1 = key) with
    | some p => if p.2 = "" then existing key else some p.2
    | none => existing key

/-- The filter-argument resolution inside `buildListParams` (lines
863–869): an `@path` argument is replaced by the file's trimmed text when
the read succeeds; a read failure discards the error and keeps the literal
argument. -/
def resolveFilter (filter : String) (readFile : String → Except Unit String) : String :=
  if hasAt filter then
    match readFile (trimAt filter) with
    | .ok content => content.trim
    | .error _ => filter
  else filter

/-- Embeds `buildListParams` (src/unnamed/part_000 lines 852–882) as the
list of map insertions it performs, in source order (the keys are
distinct, so the map equals this association list).  `readFile` is the
`os.ReadFile` oracle used for `@path` filter arguments. -/
def buildListParams (page limit : Int) (sort filter query incl fields resource : String)
    (readFile : String → Except Unit String) : List (String × String) :=
  (if page > 0 then [("page[number]", toString page)] else []) ++
  (if limit > 0 then [("page[limit]", toString limit)] else []) ++
  (if sort ≠ "" then [("sort", sort)] else []) ++
  (if filter ≠ "" then [("filter", resolveFilter filter readFile)] else []) ++
  (if query ≠ "" then [("q", query)] else []) ++
  (if incl ≠ "" then [("include", incl)] else []) ++
  (if fields ≠ "" then [("fields[" ++ resource ++ "]", fields)] else [])

/-- Embeds Go `filepath.Base` on slash-separated paths: "" → ".",
all-separators → "/", else the last component after trailing slashes are
stripped. -/
def filepathBase (path : String) : String :=
  if path = "" then "."
  else
    let rev := path.data.reverse.dropWhile (fun c => c = '/')
    if rev = [] then "/"
    else String.mk (rev.takeWhile (fun c => c ≠ '/')).reverse

/-- Embeds `DefaultFileName` (src/internal/pingen/api.go lines 269–275). -/
def DefaultFileName (path : String) : String :=
  let base := filepathBase path
  if base = "." ∨ base = "/" then "document.pdf" else base

/-- Embeds `isAllowed` (src/unnamed/part_000 lines 952–959). -/
def isAllowed (value : String) (allowed : List String) : Bool :=
  allowed.any (fun item => value = item)

/-- The network calls the letter handlers can issue. -/
inductive NetCall where
  | tokenRequest
  | uploadSlotRequest
  | fileUpload
  | createRequest
  | sendRequest
deriving DecidableEq

/-- Outcome of a letter handler run: which return path was taken and what
payload it emits (exit codes and printing are a collaborator concern). -/
inductive HandlerResult where
  | usage
  | validationErr (msg : String)
  | tokenErr (e : TokenErr)
  | apiErr
  | preview (payload : Json)
  | ok (resp : Json)

/-- Flag values of `letters create` after flag parsing (lines 567–586). -/
structure CreateFlags where
  filePath : String
  fileName : String
  addressPos : String
  autoSend : Bool
  deliveryProduct : String
  printMode : String
  printSpectrum : String
  metaJSON : String
  metaFile : String
  idempotencyKey : String
  help : Bool

/-- Flag and positional values of `letters send` after flag parsing
(lines 724–745); `args` is `fs.Args()`. -/
structure SendFlags where
  deliveryProduct : String
  printMode : String
  printSpectrum : String
  metaJSON : String
  metaFile : String
  idempotencyKey : String
  help : Bool
  args : List String

/-- Oracles for every effect a letter handler can perform: filesystem
checks, metadata reads/parses, the token environment of
`ensureAccessToken`, and the client's network calls.  Oracle results model
the classified outcome of each HTTP exchange. -/
structure EffectOracle where
  statOk : String → Bool
  readMeta : String → Except Unit (Option Json)
  parseInline : String → Option Json
  now : Int
  configLoaded : Bool
  loadedCfg : Config
  saveOutcome : Except Unit Unit
  getToken : Except Unit (List (String × Json))
  uploadSlot : Except Unit (String × String)
  upload : String → String → Except Unit Unit
  create : Json → String → Except Unit Json
  send : Json → String → Except Unit Json

/-- The `attributes` map built by `handleLettersCreate` (lines 609–637), as
the list of insertions in source order (all keys distinct).  The optional
entries appear exactly when their flag is non-empty (the handler has
already rejected disallowed values) or metadata is present. -/
def createAttributes (originalName : String) (f : CreateFlags)
    (metaData : Option (List (String × Json))) : List (String × Json) :=
  [("file_original_name", .str originalName),
   ("address_position", .str f.addressPos),
   ("auto_send", .bool f.autoSend)] ++
  (if f.deliveryProduct ≠ "" then [("delivery_product", .str f.deliveryProduct)] else []) ++
  (if f.printMode ≠ "" then [("print_mode", .str f.printMode)] else []) ++
  (if f.printSpectrum ≠ "" then [("print_spectrum", .str f.printSpectrum)] else []) ++
  (match metaData with
   | some m => [("meta_data", .obj m)]
   | none => [])

/-- The dry-run preview object of `handleLettersCreate` (lines 639–647). -/
def createPreview (settings : Config) (f : CreateFlags)
    (metaData : Option (List (String × Json))) : Json :=
  .obj [("action", .str "letters.create"),
    ("file", .str f.filePath),
    ("organisation_id", .str settings.organisationID),
    ("attributes", .obj (createAttributes
      (if f.fileName = "" then DefaultFileName f.filePath else f.fileName) f metaData))]

/-- The letter-creation request body (lines 679–702): the base attributes
plus each optional attribute copied from the attributes map when present
(equivalently, when its flag was non-empty / metadata was supplied). -/
def createPayload (originalName uploadURL signature : String) (f : CreateFlags)
    (metaData : Option (List (String × Json))) : Json :=
  .obj [("data", .obj [("type", .str "letters"),
    ("attributes", .obj (
      [("file_original_name", .str originalName),
       ("file_url", .str uploadURL),
       ("file_url_signature", .str signature),
       ("address_position", .str f.addressPos),
       ("auto_send", .bool f.autoSend)] ++
      (if f.deliveryProduct ≠ "" then [("delivery_product", .str f.deliveryProduct)] else []) ++
      (if f.printMode ≠ "" then [("print_mode", .str f.printMode)] else []) ++
      (if f.printSpectrum ≠ "" then [("print_spectrum", .str f.printSpectrum)] else []) ++
      (match metaData with
       | some m => [("meta_data", .obj m)]
       | none => [])))])]

/-- Embeds `handleLettersCreate` (src/unnamed/part_000 lines 562–717),
returning the handler outcome and the ordered list of network calls it
issued.  The nested enum checks of the source (`if dp != "" { if
!isAllowed ... }`) are flattened into guard-and-error conditions, with the
conditional attribute insertions factored into `createAttributes`. -/
def handleLettersCreate (settings : Config) (dryRun : Bool) (f : CreateFlags)
    (eff : EffectOracle) : HandlerResult × List NetCall :=
  if settings.organisationID = "" then (.validationErr "organisation id required", [])
  else if f.help then (.usage, [])
  else if f.filePath = "" then (.validationErr "--file is required", [])
  else if f.addressPos ≠ "left" ∧ f.addressPos ≠ "right" then
    (.validationErr "address-position must be left or right", [])
  else if eff.statOk f.filePath = false then (.validationErr "file not found", [])
  else
    let originalName := if f.fileName = "" then DefaultFileName f.filePath else f.fileName
    match loadJSONInput f.metaJSON f.metaFile eff.readMeta eff.parseInline with
    | .error _ => (.validationErr "invalid metadata", [])
    | .ok metaData =>
      if f.deliveryProduct ≠ "" ∧
          isAllowed f.deliveryProduct ["fast", "cheap", "bulk", "premium", "registered"] = false then
        (.validationErr "invalid delivery-product", [])
      else if f.printMode ≠ "" ∧ isAllowed f.printMode ["simplex", "duplex"] = false then
        (.validationErr "invalid print-mode", [])
      else if f.printSpectrum ≠ "" ∧ isAllowed f.printSpectrum ["color", "grayscale"] = false then
        (.validationErr "invalid print-spectrum", [])
      else if dryRun then (.preview (createPreview settings f metaData), [])
      else
        let tk := ensureAccessToken settings eff.now eff.configLoaded eff.getToken
          eff.loadedCfg eff.saveOutcome
        let trace := if tk.networkCall then [NetCall.tokenRequest] else []
        match tk.result with
        | .error e => (.tokenErr e, trace)
        | .ok _ =>
          match eff.uploadSlot with
          | .error _ => (.apiErr, trace ++ [.uploadSlotRequest])
          | .ok (uploadURL, signature) =>
            match eff.upload uploadURL f.filePath with
            | .error _ => (.apiErr, trace ++ [.uploadSlotRequest, .fileUpload])
            | .ok _ =>
              match eff.create (createPayload originalName uploadURL signature f metaData)
                  f.idempotencyKey with
              | .error _ => (.apiErr, trace ++ [.uploadSlotRequest, .fileUpload, .createRequest])
              | .ok resp => (.ok resp, trace ++ [.uploadSlotRequest, .fileUpload, .createRequest])

/-- The `attributes` map of `handleLettersSend` (lines 767–774). -/
def sendAttributes (f : SendFlags) (metaData : Option (List (String × Json))) :
    List (String × Json) :=
  [("delivery_product", .str f.deliveryProduct),
   ("print_mode", .str f.printMode),
   ("print_spectrum", .str f.printSpectrum)] ++
  (match metaData with
   | some m => [("meta_data", .obj m)]
   | none => [])

/-- The dry-run preview object of `handleLettersSend` (lines 776–784). -/
def sendPreview (settings : Config) (letterID : String) (f : SendFlags)
    (metaData : Option (List (String × Json))) : Json :=
  .obj [("action", .str "letters.send"),
    ("organisation_id", .str settings.organisationID),
    ("letter_id", .str letterID),
    ("attributes", .obj (sendAttributes f metaData))]

/-- Embeds `handleLettersSend` (src/unnamed/part_000 lines 719–813). -/
def handleLettersSend (settings : Config) (dryRun : Bool) (f : SendFlags)
    (eff : EffectOracle) : HandlerResult × List NetCall :=
  if settings.organisationID = "" then (.validationErr "organisation id required", [])
  else if f.help then (.usage, [])
  else
    match f.args with
    | [] => (.validationErr "letter id required", [])
    | letterID :: _ =>
      if f.deliveryProduct = "" ∨ f.printMode = "" ∨ f.printSpectrum = "" then
        (.validationErr "delivery-product, print-mode, and print-spectrum are required", [])
      else if isAllowed f.deliveryProduct ["fast", "cheap", "bulk", "premium", "registered"] = false then
        (.validationErr "invalid delivery-product", [])
      else if isAllowed f.printMode ["simplex", "duplex"] = false then
        (.validationErr "invalid print-mode", [])
      else if isAllowed f.printSpectrum ["color", "grayscale"] = false then
        (.validationErr "invalid print-spectrum", [])
      else
        match loadJSONInput f.metaJSON f.metaFile eff.readMeta eff.parseInline with
        | .error _ => (.validationErr "invalid metadata", [])
        | .ok metaData =>
          if dryRun then (.preview (sendPreview settings letterID f metaData), [])
          else
            let tk := ensureAccessToken settings eff.now eff.configLoaded eff.getToken
              eff.loadedCfg eff.saveOutcome
            let trace := if tk.networkCall then [NetCall.tokenRequest] else []
            match tk.result with
            | .error e => (.tokenErr e, trace)
            | .ok _ =>
              let payload : Json := .obj [("data", .obj [("id", .str letterID),
                ("type", .str "letters"), ("attributes", .obj (sendAttributes f metaData))])]
              match eff.send payload f.idempotencyKey with
              | .error _ => (.apiErr, trace ++ [.sendRequest])
              | .ok resp => (.ok resp, trace ++ [.sendRequest])

end Pingen

namespace Pingen

/-- C1: Config resolution is the three-way fold `merge(merge(file, env), cli)`
where, independently for each field, the result is the CLI value when
non-empty (non-zero for the expiry field), else the environment value when
non-empty (non-zero), else the file value. -/
theorem mergeConfig_three_way_fold (file env cli : Config) :
    let merged := MergeConfig (MergeConfig file env) cli
    merged.env = specPickStr file.env env.env cli.env ∧
    merged.apiBase = specPickStr file.apiBase env.apiBase cli.apiBase ∧
    merged.identityBase = specPickStr file.identityBase env.identityBase cli.identityBase ∧
    merged.organisationID = specPickStr file.organisationID env.organisationID cli.organisationID ∧
    merged.accessToken = specPickStr file.accessToken env.accessToken cli.accessToken ∧
    merged.accessTokenExpiresAt =
      specPickInt file.accessTokenExpiresAt env.accessTokenExpiresAt cli.accessTokenExpiresAt ∧
    merged.clientID = specPickStr file.clientID env.clientID cli.clientID ∧
    merged.clientSecret = specPickStr file.clientSecret env.clientSecret cli.clientSecret := by
  exact ⟨rfl, rfl, rfl, rfl, rfl, rfl, rfl, rfl⟩

/-- C4: after the merge, an unset environment defaults to staging; any
other value than staging/production is rejected with a validation error;
then each base URL, when unset, is set to the environment's literal
hostname, and an explicitly supplied base URL is never overridden. -/
theorem env_default_validation_and_bases (s : Config) (sub : String) (loaded : Bool) :
    (s.env = "" →
      runEnvStep s sub loaded =
        .dispatch sub (applyDefaultBases { s with env := "staging" }) loaded) ∧
    (s.env ≠ "" → s.env ≠ "staging" → s.env ≠ "production" →
      runEnvStep s sub loaded = .invalidEnv) ∧
    (s.env = "staging" ∨ s.env = "production" →
      runEnvStep s sub loaded = .dispatch sub (applyDefaultBases s) loaded) ∧
    (∀ c : Config,
      ((applyDefaultBases c).apiBase =
        if c.apiBase = "" then
          (if c.env = "production" then "https://api.pingen.com"
           else "https://api-staging.pingen.com")
        else c.apiBase) ∧
      ((applyDefaultBases c).identityBase =
        if c.identityBase = "" then
          (if c.env = "production" then "https://identity.pingen.com"
           else "https://identity-staging.pingen.com")
        else c.identityBase)) := by
  refine ⟨?_, ?_, ?_, ?_⟩
  · intro h
    simp [runEnvStep, h]
  · intro h1 h2 h3
    simp only [runEnvStep, if_neg h1]
    rw [if_pos ⟨h2, h3⟩]
  · rintro (h | h) <;> simp [runEnvStep, h]
  · intro c
    constructor <;>
      (simp only [applyDefaultBases]; split_ifs <;> simp_all)

/-- C4 witness: concrete evaluation at a settings record with unset env and
unset base URLs. -/
theorem env_default_validation_and_bases_witness :
    (Config.empty.env = "" →
      runEnvStep Config.empty "letters" false =
        .dispatch "letters" (applyDefaultBases { Config.empty with env := "staging" }) false) ∧
    Config.empty.env = "" ∧
    runEnvStep Config.empty "letters" false =
      .dispatch "letters"
        { Config.empty with
          env := "staging"
          apiBase := "https://api-staging.pingen.com"
          identityBase := "https://identity-staging.pingen.com" } false :=
  ⟨(env_default_validation_and_bases Config.empty "letters" false).1, rfl, by decide⟩

/-- C8: a supplied client-secret-file path makes the file's trimmed contents
the client secret, overriding every other source; the exception is applied
after the generic three-layer merge and leaves every other field of the
merge result unchanged. -/
theorem client_secret_file_overrides (fileState : ConfigFile) (envCfg cliCfg : Config)
    (path secret : String) (rf : String → Except Unit String) (sub : String)
    (fcfg : Config) (ex : Bool)
    (hload : LoadConfig fileState = (fcfg, ex, none))
    (hpath : path ≠ "") (hrf : rf path = .ok secret) :
    let merged := MergeConfig (MergeConfig fcfg envCfg) cliCfg
    let final : Config := { merged with clientSecret := secret.trim }
    runResolve fileState envCfg cliCfg path rf sub = runEnvStep final sub ex ∧
    final.clientSecret = secret.trim ∧
    final.env = merged.env ∧ final.apiBase = merged.apiBase ∧
    final.identityBase = merged.identityBase ∧
    final.organisationID = merged.organisationID ∧
    final.accessToken = merged.accessToken ∧
    final.accessTokenExpiresAt = merged.accessTokenExpiresAt ∧
    final.clientID = merged.clientID := by
  refine ⟨?_, rfl, rfl, rfl, rfl, rfl, rfl, rfl, rfl⟩
  simp [runResolve, hload, hpath, hrf]

/-- C8 witness: concrete file config with a CLI-supplied secret, overridden
by the secret file's trimmed contents. -/
theorem client_secret_file_overrides_witness :
    LoadConfig (.content (some { Config.empty with clientSecret := "low" })) =
      ({ Config.empty with clientSecret := "low" }, true, none) ∧
    "/tmp/secret" ≠ "" ∧
    (fun p => if p = "/tmp/secret" then Except.ok "  s3cret\n"
      else Except.error ()) "/tmp/secret" = Except.ok "  s3cret\n" ∧
    runResolve (.content (some { Config.empty with clientSecret := "low" }))
        Config.empty { Config.empty with clientSecret := "cli" } "/tmp/secret"
        (fun p => if p = "/tmp/secret" then Except.ok "  s3cret\n" else Except.error ())
        "org" =
      runEnvStep
        { MergeConfig (MergeConfig { Config.empty with clientSecret := "low" } Config.empty)
            { Config.empty with clientSecret := "cli" } with
          clientSecret := ("  s3cret\n" : String).trim } "org" true := by
  refine ⟨by decide, by decide, rfl, ?_⟩
  exact (client_secret_file_overrides
    (.content (some { Config.empty with clientSecret := "low" }))
    Config.empty { Config.empty with clientSecret := "cli" }
    "/tmp/secret" "  s3cret\n"
    (fun p => if p = "/tmp/secret" then Except.ok "  s3cret\n" else Except.error ())
    "org" { Config.empty with clientSecret := "low" } true
    (by decide) (by decide) rfl).1

/-- C2: the cached token is reused with no network call exactly when the
settings carry a non-empty access token and either the stored expiry is
zero or the current time is strictly less than expiry minus 30 seconds;
otherwise, missing client id or client secret fails with the
credentials-required error, with no network call. -/
theorem ensureAccessToken_reuse_and_credentials (settings : Config) (now : Int)
    (cl : Bool) (gt : Except Unit (List (String × Json))) (lc : Config)
    (so : Except Unit Unit) :
    (((ensureAccessToken settings now cl gt lc so).networkCall = false ∧
        (ensureAccessToken settings now cl gt lc so).result = .ok settings.accessToken) ↔
      (settings.accessToken ≠ "" ∧
        (settings.accessTokenExpiresAt = 0 ∨ now < settings.accessTokenExpiresAt - 30))) ∧
    (¬(settings.accessToken ≠ "" ∧
        (settings.accessTokenExpiresAt = 0 ∨ now < settings.accessTokenExpiresAt - 30)) →
      (settings.clientID = "" ∨ settings.clientSecret = "") →
      ensureAccessToken settings now cl gt lc so =
        { result := .error .credentialsRequired, networkCall := false, savedConfig := none }) := by
  constructor
  · by_cases h1 : settings.accessToken ≠ "" ∧ settings.accessTokenExpiresAt = 0
    · simp only [ensureAccessToken, if_pos h1]
      simp [h1.1, h1.2]
    · by_cases h2 : settings.accessToken ≠ "" ∧ now < settings.accessTokenExpiresAt - 30
      · simp only [ensureAccessToken, if_neg h1, if_pos h2]
        simp [h2.1, h2.2]
      · have hcond : ¬(settings.accessToken ≠ "" ∧
            (settings.accessTokenExpiresAt = 0 ∨ now < settings.accessTokenExpiresAt - 30)) := by
          rintro ⟨ht, he | he⟩
          · exact h1 ⟨ht, he⟩
          · exact h2 ⟨ht, he⟩
        by_cases h3 : settings.clientID = "" ∨ settings.clientSecret = ""
        · simp only [ensureAccessToken, if_neg h1, if_neg h2, if_pos h3]
          simp [hcond]
        · have hnet : (ensureAccessToken settings now cl gt lc so).networkCall = true := by
            simp only [ensureAccessToken, if_neg h1, if_neg h2, if_neg h3]
            rcases gt with e | payload
            · rfl
            · dsimp only
              rcases hj : Json.get payload "access_token" with _ | j
              · rfl
              · cases j <;> try rfl
                split <;> split <;> rfl
          refine iff_of_false ?_ hcond
          rintro ⟨hfalse, _⟩
          rw [hnet] at hfalse
          exact Bool.noConfusion hfalse
  · intro hcond h3
    have h1 : ¬(settings.accessToken ≠ "" ∧ settings.accessTokenExpiresAt = 0) := by
      rintro ⟨a, b⟩; exact hcond ⟨a, .inl b⟩
    have h2 : ¬(settings.accessToken ≠ "" ∧ now < settings.accessTokenExpiresAt - 30) := by
      rintro ⟨a, b⟩; exact hcond ⟨a, .inr b⟩
    simp only [ensureAccessToken, if_neg h1, if_neg h2, if_pos h3]

/-- C2 witness: a token with expiry 100 at time 50 (50 < 100 - 30) is
reused; an empty-token settings record without credentials fails with the
credentials-required error. -/
theorem ensureAccessToken_reuse_and_credentials_witness :
    let cached : Config := { Config.empty with accessToken := "tok", accessTokenExpiresAt := 100 }
    ((ensureAccessToken cached 50 false (.error ()) Config.empty (.ok ())).networkCall = false ∧
      (ensureAccessToken cached 50 false (.error ()) Config.empty (.ok ())).result = .ok "tok") ∧
    ensureAccessToken Config.empty 50 false (.error ()) Config.empty (.ok ()) =
      { result := .error .credentialsRequired, networkCall := false, savedConfig := none } := by
  constructor
  · exact (ensureAccessToken_reuse_and_credentials _ 50 false (.error ()) Config.empty
      (.ok ())).1.mpr ⟨by decide, .inr (by decide)⟩
  · exact (ensureAccessToken_reuse_and_credentials Config.empty 50 false (.error ()) Config.empty
      (.ok ())).2 (by decide) (.inl rfl)

/-- C3: on a refresh, a response whose access_token is absent or not a
non-empty string fails with the protocol error; a response carrying token
`t` and `expires_in = e`, when a persisted config previously existed,
attempts to save the token with absolute expiry `now + e`; and the call
returns the fresh token for every outcome of that best-effort save. -/
theorem ensureAccessToken_refresh (settings : Config) (now : Int)
    (payload : List (String × Json)) (lc : Config) (so : Except Unit Unit)
    (hNoReuse : ¬(settings.accessToken ≠ "" ∧
      (settings.accessTokenExpiresAt = 0 ∨ now < settings.accessTokenExpiresAt - 30)))
    (hid : settings.clientID ≠ "") (hsec : settings.clientSecret ≠ "") :
    (((∀ t, Json.get payload "access_token" ≠ some (.str t)) ∨
        Json.get payload "access_token" = some (.str "")) →
      ∀ cl : Bool, ensureAccessToken settings now cl (.ok payload) lc so =
        { result := .error .tokenMissing, networkCall := true, savedConfig := none }) ∧
    (∀ t e, t ≠ "" → Json.get payload "access_token" = some (.str t) →
      Json.get payload "expires_in" = some (.num e) →
      ensureAccessToken settings now true (.ok payload) lc so =
        { result := .ok t, networkCall := true
          savedConfig := some { lc with accessToken := t, accessTokenExpiresAt := now + e } }) := by
  have h1 : ¬(settings.accessToken ≠ "" ∧ settings.accessTokenExpiresAt = 0) := by
    rintro ⟨a, b⟩; exact hNoReuse ⟨a, .inl b⟩
  have h2 : ¬(settings.accessToken ≠ "" ∧ now < settings.accessTokenExpiresAt - 30) := by
    rintro ⟨a, b⟩; exact hNoReuse ⟨a, .inr b⟩
  have h3 : ¬(settings.clientID = "" ∨ settings.clientSecret = "") := by
    rintro (h | h) <;> simp_all
  constructor
  · rintro (habs | hempty) cl
    · simp only [ensureAccessToken, if_neg h1, if_neg h2, if_neg h3]
    · simp [ensureAccessToken, if_neg h1, if_neg h2, if_neg h3, hempty]
  · intro t e ht hj he
    simp only [ensureAccessToken, if_neg h1, if_neg h2, if_neg h3, hj, he, if_neg ht]
    simp [ht]

/-- C3 witness: concrete refresh at time 1000 with `expires_in = 3600`;
the attempted save carries expiry 4600, and the result is the fresh token
for a failing save outcome; a payload without access_token fails with the
protocol error. -/
theorem ensureAccessToken_refresh_witness :
    let creds : Config := { Config.empty with clientID := "id", clientSecret := "sec" }
    ensureAccessToken creds 1000 true
        (.ok [("access_token", .str "fresh"), ("expires_in", .num 3600)])
        Config.empty (.error ()) =
      { result := .ok "fresh", networkCall := true
        savedConfig := some { Config.empty with
          accessToken := "fresh", accessTokenExpiresAt := 4600 } } ∧
    ensureAccessToken creds 1000 true (.ok [("token_type", .str "Bearer")])
        Config.empty (.ok ()) =
      { result := .error .tokenMissing, networkCall := true, savedConfig := none } := by
  constructor
  · exact (ensureAccessToken_refresh
      { Config.empty with clientID := "id", clientSecret := "sec" } 1000
      [("access_token", .str "fresh"), ("expires_in", .num 3600)] Config.empty (.error ())
      (by simp [Config.empty]) (by decide) (by decide)).2 "fresh" 3600
      (by decide) rfl rfl
  · exact (ensureAccessToken_refresh
      { Config.empty with clientID := "id", clientSecret := "sec" } 1000
      [("token_type", .str "Bearer")] Config.empty (.ok ())
      (by simp [Config.empty]) (by decide) (by decide)).1
      (.inl (fun t h => by simp [Json.get] at h)) true

theorem parseJSONObject_not_obj_not_null (content : Option Json)
    (hobj : ∀ fields, content ≠ some (.obj fields))
    (hnull : content ≠ some .null) :
    parseJSONObject content = .error .invalidJSON := by
  rcases content with _ | j
  · rfl
  · cases j <;> first
      | exact absurd rfl (hobj _)
      | exact absurd rfl hnull
      | rfl

/-- C5 counterexample: the claim that any non-object input (array or
scalar) fails with a validation error is false at the concrete input of
JSON `null` as the single inline source: `json.Unmarshal` into a map
accepts `null` as a nil map with nil error, so `loadJSONInput` succeeds
with no metadata instead of failing validation. -/
theorem loadJSONInput_null_counterexample :
    loadJSONInput "null" "" (fun _ => Except.error ())
      (fun s => if s = "null" then some Json.null else none) = .ok none ∧
    loadJSONInput "null" "" (fun _ => Except.error ())
      (fun s => if s = "null" then some Json.null else none) ≠
      .error MetaErr.invalidJSON := by
  have h0 : loadJSONInput "null" "" (fun _ => Except.error ())
      (fun s => if s = "null" then some Json.null else none) = .ok none := rfl
  refine ⟨h0, ?_⟩
  intro h
  rw [h0] at h
  exact Except.noConfusion h

/-- C5 (amended): supplying both an inline JSON value and a metadata file
fails with a validation error; when exactly one source is supplied, its
content must parse as a JSON object or be the JSON literal `null` — `null`
yields no metadata with no error, and any other non-object input (array or
non-null scalar) fails with a validation error; with neither source the
result is no metadata and no error. -/
theorem loadJSONInput_spec (mj mf : String)
    (rf : String → Except Unit (Option Json)) (po : String → Option Json) :
    (mj ≠ "" → mf ≠ "" → loadJSONInput mj mf rf po = .error .bothSources) ∧
    (∀ fields, mj = "" → mf ≠ "" → rf mf = .ok (some (.obj fields)) →
      loadJSONInput mj mf rf po = .ok (some fields)) ∧
    (mj = "" → mf ≠ "" → rf mf = .ok (some .null) →
      loadJSONInput mj mf rf po = .ok none) ∧
    (∀ content, mj = "" → mf ≠ "" → rf mf = .ok content →
      (∀ fields, content ≠ some (.obj fields)) → content ≠ some .null →
      loadJSONInput mj mf rf po = .error .invalidJSON) ∧
    (∀ fields, mf = "" → mj ≠ "" → ¬(hasAt mj = true) →
      po mj = some (.obj fields) → loadJSONInput mj mf rf po = .ok (some fields)) ∧
    (mf = "" → mj ≠ "" → ¬(hasAt mj = true) → po mj = some .null →
      loadJSONInput mj mf rf po = .ok none) ∧
    (mf = "" → mj ≠ "" → ¬(hasAt mj = true) →
      (∀ fields, po mj ≠ some (.obj fields)) → po mj ≠ some .null →
      loadJSONInput mj mf rf po = .error .invalidJSON) ∧
    (mj = "" → mf = "" → loadJSONInput mj mf rf po = .ok none) := by
  refine ⟨?_, ?_, ?_, ?_, ?_, ?_, ?_, ?_⟩
  · intro h1 h2
    simp [loadJSONInput, h1, h2]
  · intro fields h1 h2 h3
    simp [loadJSONInput, h1, h2, h3, parseJSONObject]
  · intro h1 h2 h3
    simp [loadJSONInput, h1, h2, h3, parseJSONObject]
  · intro content h1 h2 h3 h4 h5
    simp [loadJSONInput, h1, h2, h3, parseJSONObject_not_obj_not_null content h4 h5]
  · intro fields h1 h2 h3 h4
    simp [loadJSONInput, h1, h2, h3, h4, parseJSONObject]
  · intro h1 h2 h3 h4
    simp [loadJSONInput, h1, h2, h3, h4, parseJSONObject]
  · intro h1 h2 h3 h4 h5
    simp [loadJSONInput, h1, h2, h3, parseJSONObject_not_obj_not_null (po mj) h4 h5]
  · intro h1 h2
    simp [loadJSONInput, h1, h2]

/-- C5 witness: both sources conflict; inline object content parses to its
fields; inline array content fails validation; inline null yields no
metadata with no error; no sources yield no metadata. -/
theorem loadJSONInput_spec_witness :
    let po : String → Option Json := fun s =>
      if s = "inlineobj" then some (.obj [("a", .num 1)])
      else if s = "[1,2]" then some (.arr [.num 1, .num 2])
      else if s = "null" then some .null
      else none
    let rf : String → Except Unit (Option Json) := fun _ => .error ()
    loadJSONInput "x" "y" rf po = .error .bothSources ∧
    loadJSONInput "inlineobj" "" rf po = .ok (some [("a", .num 1)]) ∧
    loadJSONInput "[1,2]" "" rf po = .error .invalidJSON ∧
    loadJSONInput "null" "" rf po = .ok none ∧
    loadJSONInput "" "" rf po = .ok none := by
  refine ⟨?_, ?_, ?_, ?_, ?_⟩
  · exact (loadJSONInput_spec "x" "y" _ _).1 (by decide) (by decide)
  · exact (loadJSONInput_spec _ "" _ _).2.2.2.2.1 [("a", .num 1)]
      rfl (by decide) (by decide) rfl
  · refine (loadJSONInput_spec "[1,2]" "" _ _).2.2.2.2.2.2.1
      rfl (by decide) (by decide) ?_ ?_
    · intro fields h
      simp at h
    · intro h
      simp at h
  · exact (loadJSONInput_spec "null" "" _ _).2.2.2.2.2.1
      rfl (by decide) (by decide) rfl
  · exact (loadJSONInput_spec "" "" _ _).2.2.2.2.2.2.2 rfl rfl

/-- C6: query construction keeps every existing parameter whose key is not
among the supplied ones, sets or overrides each supplied non-empty
parameter, and the list parameters built from page=2, limit=0, filter=""
contain only page[number]=2. -/
theorem addQuery_buildListParams_spec :
    (∀ (existing : String → Option String) (params : List (String × String)) (key : String),
      params.find? (fun p => p.1 = key) = none →
      addQuery existing params key = existing key) ∧
    (∀ (existing : String → Option String) (params : List (String × String)) (key v : String),
      params.find? (fun p => p.1 = key) = some (key, v) → v ≠ "" →
      addQuery existing params key = some v) ∧
    (∀ rf, buildListParams 2 0 "" "" "" "" "" "letters" rf = [("page[number]", "2")]) := by
  refine ⟨?_, ?_, ?_⟩
  · intro existing params key h
    simp [addQuery, h]
  · intro existing params key v h hv
    simp [addQuery, h, hv]
  · intro rf
    rfl

/-- C6 witness: an existing parameter under an unsupplied key survives; a
supplied non-empty parameter overrides; the concrete page=2, limit=0,
filter="" example yields exactly page[number]=2. -/
theorem addQuery_buildListParams_spec_witness :
    addQuery (fun k => if k = "sort" then some "name" else none)
      [("page[number]", "2")] "sort" = some "name" ∧
    addQuery (fun k => if k = "filter" then some "old" else none)
      [("filter", "new")] "filter" = some "new" ∧
    buildListParams 2 0 "" "" "" "" "" "letters" (fun _ => .error ()) =
      [("page[number]", "2")] := by
  refine ⟨?_, ?_, addQuery_buildListParams_spec.2.2 _⟩
  · have h := addQuery_buildListParams_spec.1
      (fun k => if k = "sort" then some "name" else none) [("page[number]", "2")] "sort"
      (by simp [List.find?])
    simpa using h
  · exact addQuery_buildListParams_spec.2.1
      (fun k => if k = "filter" then some "old" else none) [("filter", "new")] "filter" "new"
      (by simp [List.find?]) (by decide)

theorem find?_append_of_none {α} {p : α → Bool} {l1 : List α} (l2 : List α)
    (h : l1.find? p = none) : (l1 ++ l2).find? p = l2.find? p := by
  induction l1 with
  | nil => rfl
  | cons a t ih =>
    cases hpa : p a with
    | true => simp [List.find?, hpa] at h
    | false =>
      simp only [List.find?, hpa] at h
      simp only [List.cons_append, List.find?, hpa]
      exact ih h

theorem find?_append_none {α} {p : α → Bool} {l1 l2 : List α}
    (h1 : l1.find? p = none) (h2 : l2.find? p = none) :
    (l1 ++ l2).find? p = none := by
  rw [find?_append_of_none _ h1]
  exact h2

theorem find?_append_of_some {α} {p : α → Bool} {l1 : List α} (l2 : List α) {a : α}
    (h : l1.find? p = some a) : (l1 ++ l2).find? p = some a := by
  induction l1 with
  | nil => exact absurd h (by simp [List.find?])
  | cons b t ih =>
    cases hpb : p b with
    | true =>
      simp only [List.find?, hpb] at h
      simp only [List.cons_append, List.find?, hpb]
      exact h
    | false =>
      simp only [List.find?, hpb] at h
      simp only [List.cons_append, List.find?, hpb]
      exact ih h

/-- C9: a filter argument beginning with '@' whose file read fails does not
fail the listing: the read error is discarded and the literal argument
text, '@' prefix included, becomes the filter query-parameter value. -/
theorem filter_read_failure_sends_literal (page limit : Int)
    (sort filter query incl fields resource : String)
    (rf : String → Except Unit String)
    (hfil : filter ≠ "") (hat : hasAt filter = true)
    (hrf : rf (trimAt filter) = .error ()) :
    (buildListParams page limit sort filter query incl fields resource rf).find?
        (fun p => p.1 = "filter") = some ("filter", filter) := by
  have hres : resolveFilter filter rf = filter := by
    simp [resolveFilter, hat, hrf]
  have h1 : (if page > 0 then [("page[number]", toString page)] else []).find?
      (fun p => p.1 = "filter") = none := by
    split <;> simp [List.find?]
  have h2 : (if limit > 0 then [("page[limit]", toString limit)] else []).find?
      (fun p => p.1 = "filter") = none := by
    split <;> simp [List.find?]
  have h3 : (if sort ≠ "" then [("sort", sort)] else []).find?
      (fun p => p.1 = "filter") = none := by
    split <;> simp [List.find?]
  simp only [buildListParams, if_pos hfil, hres]
  have h4 : ((((if page > 0 then [("page[number]", toString page)] else []) ++
      (if limit > 0 then [("page[limit]", toString limit)] else [])) ++
      (if sort ≠ "" then [("sort", sort)] else [])) ++ [("filter", filter)]).find?
      (fun p => p.1 = "filter") = some ("filter", filter) := by
    rw [find?_append_of_none _ (find?_append_none (find?_append_none h1 h2) h3)]
    simp [List.find?]
  exact find?_append_of_some _ (find?_append_of_some _ (find?_append_of_some _ h4))

/-- C9 witness: a concrete '@' filter with a failing read oracle keeps the
literal argument as the filter value. -/
theorem filter_read_failure_sends_literal_witness :
    (buildListParams 1 2 "created" "@missing" "" "" "" "letters"
        (fun _ => .error ())).find? (fun p => p.1 = "filter") =
      some ("filter", "@missing") :=
  filter_read_failure_sends_literal 1 2 "created" "@missing" "" "" "" "letters"
    (fun _ => .error ()) (by decide) (by decide) rfl

/-- C7: under dry-run mode, letters create and letters send issue zero
network calls for every input (no token fetch, upload-slot request, upload,
create, or send request), still perform their local validation, and return
the preview object describing the intended action and attributes when
validation passes. -/
theorem dry_run_previews_and_no_network (settings : Config) (cf : CreateFlags)
    (sf : SendFlags) (eff : EffectOracle) :
    ((handleLettersCreate settings true cf eff).2 = [] ∧
      (handleLettersSend settings true sf eff).2 = []) ∧
    (∀ metaData, settings.organisationID ≠ "" → cf.help = false → cf.filePath ≠ "" →
      (cf.addressPos = "left" ∨ cf.addressPos = "right") →
      eff.statOk cf.filePath = true →
      loadJSONInput cf.metaJSON cf.metaFile eff.readMeta eff.parseInline = .ok metaData →
      (cf.deliveryProduct = "" ∨
        isAllowed cf.deliveryProduct ["fast", "cheap", "bulk", "premium", "registered"] = true) →
      (cf.printMode = "" ∨ isAllowed cf.printMode ["simplex", "duplex"] = true) →
      (cf.printSpectrum = "" ∨ isAllowed cf.printSpectrum ["color", "grayscale"] = true) →
      handleLettersCreate settings true cf eff =
        (.preview (createPreview settings cf metaData), [])) ∧
    (∀ metaData letterID rest, settings.organisationID ≠ "" → sf.help = false →
      sf.args = letterID :: rest →
      sf.deliveryProduct ≠ "" → sf.printMode ≠ "" → sf.printSpectrum ≠ "" →
      isAllowed sf.deliveryProduct ["fast", "cheap", "bulk", "premium", "registered"] = true →
      isAllowed sf.printMode ["simplex", "duplex"] = true →
      isAllowed sf.printSpectrum ["color", "grayscale"] = true →
      loadJSONInput sf.metaJSON sf.metaFile eff.readMeta eff.parseInline = .ok metaData →
      handleLettersSend settings true sf eff =
        (.preview (sendPreview settings letterID sf metaData), [])) := by
  refine ⟨⟨?_, ?_⟩, ?_, ?_⟩
  · by_cases h1 : settings.organisationID = ""
    · simp [handleLettersCreate, h1]
    by_cases h2 : cf.help = true
    · simp [handleLettersCreate, h1, h2]
    by_cases h3 : cf.filePath = ""
    · simp [handleLettersCreate, h1, h2, h3]
    by_cases h4 : cf.addressPos ≠ "left" ∧ cf.addressPos ≠ "right"
    · simp [handleLettersCreate, h1, h2, h3, h4]
    by_cases h5 : eff.statOk cf.filePath = false
    · simp [handleLettersCreate, h1, h2, h3, h4, h5]
    rcases hm : loadJSONInput cf.metaJSON cf.metaFile eff.readMeta eff.parseInline with e | m
    · simp [handleLettersCreate, h1, h2, h3, h4, h5, hm]
    by_cases h6 : cf.deliveryProduct ≠ "" ∧
        isAllowed cf.deliveryProduct ["fast", "cheap", "bulk", "premium", "registered"] = false
    · simp [handleLettersCreate, h1, h2, h3, h4, h5, hm, h6]
    by_cases h7 : cf.printMode ≠ "" ∧ isAllowed cf.printMode ["simplex", "duplex"] = false
    · simp [handleLettersCreate, h1, h2, h3, h4, h5, hm, h6, h7]
    by_cases h8 : cf.printSpectrum ≠ "" ∧
        isAllowed cf.printSpectrum ["color", "grayscale"] = false
    · simp [handleLettersCreate, h1, h2, h3, h4, h5, hm, h6, h7, h8]
    simp [handleLettersCreate, h1, h2, h3, h4, h5, hm, h6, h7, h8]
  · by_cases h1 : settings.organisationID = ""
    · simp [handleLettersSend, h1]
    by_cases h2 : sf.help = true
    · simp [handleLettersSend, h1, h2]
    rcases ha : sf.args with _ | ⟨letterID, rest⟩
    · simp [handleLettersSend, h1, h2, ha]
    by_cases h3 : sf.deliveryProduct = "" ∨ sf.printMode = "" ∨ sf.printSpectrum = ""
    · simp [handleLettersSend, h1, h2, ha, h3]
    by_cases h4 : isAllowed sf.deliveryProduct
        ["fast", "cheap", "bulk", "premium", "registered"] = false
    · simp [handleLettersSend, h1, h2, ha, h3, h4]
    by_cases h5 : isAllowed sf.printMode ["simplex", "duplex"] = false
    · simp [handleLettersSend, h1, h2, ha, h3, h4, h5]
    by_cases h6 : isAllowed sf.printSpectrum ["color", "grayscale"] = false
    · simp [handleLettersSend, h1, h2, ha, h3, h4, h5, h6]
    rcases hm : loadJSONInput sf.metaJSON sf.metaFile eff.readMeta eff.parseInline with e | m
    · simp [handleLettersSend, h1, h2, ha, h3, h4, h5, h6, hm]
    simp [handleLettersSend, h1, h2, ha, h3, h4, h5, h6, hm]
  · intro metaData horg hhelp hfile haddr hstat hmeta hdp hpm hps
    have haddr' : ¬(cf.addressPos ≠ "left" ∧ cf.addressPos ≠ "right") := by
      rcases haddr with h | h <;> simp [h]
    have hdp' : ¬(cf.deliveryProduct ≠ "" ∧
        isAllowed cf.deliveryProduct ["fast", "cheap", "bulk", "premium", "registered"] = false) := by
      rcases hdp with h | h <;> simp [h]
    have hpm' : ¬(cf.printMode ≠ "" ∧ isAllowed cf.printMode ["simplex", "duplex"] = false) := by
      rcases hpm with h | h <;> simp [h]
    have hps' : ¬(cf.printSpectrum ≠ "" ∧
        isAllowed cf.printSpectrum ["color", "grayscale"] = false) := by
      rcases hps with h | h <;> simp [h]
    simp [handleLettersCreate, horg, hhelp, hfile, haddr', hstat, hmeta, hdp', hpm', hps']
  · intro metaData letterID rest horg hhelp hargs hdp hpm hps hadp hapm haps hmeta
    simp [handleLettersSend, horg, hhelp, hargs, hdp, hpm, hps, hadp, hapm, haps, hmeta]

/-- C7 witness: concrete dry-run create and send invocations with failing
network oracles still return previews with an empty network trace. -/
theorem dry_run_previews_and_no_network_witness :
    let settings : Config := { Config.empty with organisationID := "org1" }
    let cf : CreateFlags := {
      filePath := "doc.pdf"
      fileName := ""
      addressPos := "left"
      autoSend := false
      deliveryProduct := ""
      printMode := ""
      printSpectrum := ""
      metaJSON := ""
      metaFile := ""
      idempotencyKey := ""
      help := false }
    let sf : SendFlags := {
      deliveryProduct := "fast"
      printMode := "simplex"
      printSpectrum := "color"
      metaJSON := ""
      metaFile := ""
      idempotencyKey := ""
      help := false
      args := ["ltr1"] }
    let eff : EffectOracle := {
      statOk := fun _ => true
      readMeta := fun _ => .error ()
      parseInline := fun _ => none
      now := 0
      configLoaded := false
      loadedCfg := Config.empty
      saveOutcome := .ok ()
      getToken := .error ()
      uploadSlot := .error ()
      upload := fun _ _ => .error ()
      create := fun _ _ => .error ()
      send := fun _ _ => .error () }
    handleLettersCreate settings true cf eff =
      (.preview (createPreview settings cf none), []) ∧
    handleLettersSend settings true sf eff =
      (.preview (sendPreview settings "ltr1" sf none), []) := by
  refine ⟨?_, ?_⟩
  · exact (dry_run_previews_and_no_network _ _
      {
        deliveryProduct := "fast"
        printMode := "simplex"
        printSpectrum := "color"
        metaJSON := ""
        metaFile := ""
        idempotencyKey := ""
        help := false
        args := ["ltr1"] } _).2.1 none (by decide) rfl (by decide)
      (.inl rfl) rfl rfl (.inl rfl) (.inl rfl) (.inl rfl)
  · exact (dry_run_previews_and_no_network _
      {
        filePath := "doc.pdf"
        fileName := ""
        addressPos := "left"
        autoSend := false
        deliveryProduct := ""
        printMode := ""
        printSpectrum := ""
        metaJSON := ""
        metaFile := ""
        idempotencyKey := ""
        help := false } _ _).2.2 none "ltr1" []
      (by decide) rfl rfl (by decide) (by decide) (by decide)
      (by decide) (by decide) (by decide) rfl

/-- C10: when the persisted configuration file exists but its contents do
not parse as JSON, every invocation resolves to the load-config failure
before any subcommand (config show/set/unset included) is dispatched. -/
theorem corrupt_config_blocks_every_subcommand (envCfg cliCfg : Config)
    (csf : String) (rf : String → Except Unit String) (sub : String) :
    runResolve (.content none) envCfg cliCfg csf rf sub = .loadConfigFailed ∧
    ∀ s l, runResolve (.content none) envCfg cliCfg csf rf sub ≠ .dispatch sub s l := by
  constructor
  · simp [runResolve, LoadConfig]
  · intro s l
    simp [runResolve, LoadConfig]

end Pingen
